import Mathlib

/-!
Verification of the prediction-error simulation (src/prediction-error/index.js):
a shallow embedding of the `reward`, `slack` and `expectedReward` functions,
together with a model of the categorical distribution they operate on, and
proofs of the documented properties.
-/

namespace PredictionError

/-- Clamping as lodash `_.clamp(number, lower, upper)`: the number is first
bounded above by `upper`, then below by `lower`. -/
def clamp (x lo hi : ℝ) : ℝ := max lo (min x hi)

/-- The clamping precision constant of the source (`var prec = 0.0001`). -/
def prec : ℝ := 0.0001

/-- The reward function of the source: clamp both probabilities into
`[prec, 1 - prec]` and return the difference of their log-odds,
`Math.log(p / (1 - p)) - Math.log(prior / (1 - prior))`. -/
noncomputable def reward (prior p : ℝ) : ℝ :=
  let prior2 := clamp prior prec (1 - prec)
  let p2 := clamp p prec (1 - prec)
  Real.log (p2 / (1 - p2)) - Real.log (prior2 / (1 - prior2))

/-- The slack correction of the source:
`0.95 * Math.exp(-lnx * lnx / 6)` with `lnx = Math.log(x)`. -/
noncomputable def slack (x : ℝ) : ℝ :=
  let lnx := Real.log x
  0.95 * Real.exp (-lnx * lnx / 6)

/-- Modelled from the spec: the `Categorical` distribution comes from the
external `lately` package, whose code is not part of this repository. Per the
spec it is a mapping from events to accumulated unit weights, created empty and
mutated only by `learn`, so it is represented by the sequence of learned
events. -/
structure Categorical (α : Type) where
  data : List α

/-- Modelled from the spec: `learn(event)` increments the stored weight for the
event by 1, creating the entry if absent. -/
def Categorical.learn {α : Type} (c : Categorical α) (ev : α) : Categorical α :=
  ⟨c.data ++ [ev]⟩

/-- Modelled from the spec: `weightSum()` returns the total accumulated weight,
equivalently the number of `learn` calls. -/
def Categorical.weightSum {α : Type} (c : Categorical α) : ℕ :=
  c.data.length

/-- Modelled from the spec: the stored weight of an event, the number of times
it has been learned. -/
def Categorical.weight {α : Type} [DecidableEq α] (c : Categorical α) (ev : α) : ℕ :=
  c.data.count ev

/-- Modelled from the spec: `prob(event)` returns weight(event)/total if the
total weight is positive, else 0; an event never seen has probability 0. -/
noncomputable def Categorical.prob {α : Type} [DecidableEq α] (c : Categorical α) (ev : α) : ℝ :=
  if c.weightSum = 0 then 0 else (c.weight ev : ℝ) / (c.weightSum : ℝ)

/-- Modelled from the spec: `events()` returns the distinct observed events. -/
def Categorical.events {α : Type} [DecidableEq α] (c : Categorical α) : List α :=
  c.data.dedup

/-- The expected reward of the source: a `reduce` over the events of the
population categorical, accumulating `abs(reward(pop.prob(ev), sam.prob(ev)))`
divided by the number of events. -/
noncomputable def expectedReward {α : Type} [DecidableEq α] (pop sam : Categorical α) : ℝ :=
  let evs := pop.events
  evs.foldl (fun acc ev =>
    let pp := pop.prob ev
    let p := sam.prob ev
    let rew := |reward pp p|
    acc + rew / (evs.length : ℝ)) 0

/-- The reward as the spec words it: both arguments clamped into
`[0.0001, 0.9999]` (here written lower-bound first), then the logit
difference. -/
noncomputable def rewardSpec (prior p : ℝ) : ℝ :=
  let priorC := min (max prior 0.0001) 0.9999
  let pC := min (max p 0.0001) 0.9999
  Real.log (pC / (1 - pC)) - Real.log (priorC / (1 - priorC))

/-- The expected reward as the spec words it: the unweighted arithmetic mean,
over the events of the reference distribution, of the absolute rewards. -/
noncomputable def expectedRewardSpec {α : Type} [DecidableEq α] (pop sam : Categorical α) : ℝ :=
  (pop.events.map (fun ev => |reward (pop.prob ev) (sam.prob ev)|)).sum
    / (pop.events.length : ℝ)

lemma prec_pos : (0 : ℝ) < prec := by norm_num [prec]

lemma prec_le_one_sub : prec ≤ 1 - prec := by norm_num [prec]

lemma one_sub_prec_lt_one : 1 - prec < 1 := by norm_num [prec]

lemma le_clamp (x lo hi : ℝ) : lo ≤ clamp x lo hi := le_max_left lo _

lemma clamp_le {x lo hi : ℝ} (h : lo ≤ hi) : clamp x lo hi ≤ hi :=
  max_le h (min_le_right x hi)

lemma clamp_mono {x y : ℝ} (lo hi : ℝ) (h : x ≤ y) :
    clamp x lo hi ≤ clamp y lo hi :=
  max_le_max le_rfl (min_le_min h le_rfl)

lemma clamp_eq_self {x lo hi : ℝ} (h1 : lo ≤ x) (h2 : x ≤ hi) :
    clamp x lo hi = x := by
  unfold clamp
  rw [min_eq_left h2, max_eq_right h1]

lemma clamp_comm (x lo hi : ℝ) (h : lo ≤ hi) :
    clamp x lo hi = min (max x lo) hi := by
  rcases le_total x lo with h1 | h1
  · rw [clamp, min_eq_left (le_trans h1 h), max_eq_left h1,
      max_eq_right h1, min_eq_left h]
  · rw [clamp, max_eq_right (le_min h1 h), max_eq_left h1]

lemma logit_lt_logit {x y : ℝ} (hx : 0 < x) (hxy : x < y) (hy : y < 1) :
    Real.log (x / (1 - x)) < Real.log (y / (1 - y)) := by
  have h1x : 0 < 1 - x := by linarith
  have h1y : 0 < 1 - y := by linarith
  apply Real.log_lt_log (by positivity)
  rw [div_lt_div_iff h1x h1y]
  nlinarith

lemma logit_le_logit {x y : ℝ} (hx : 0 < x) (hxy : x ≤ y) (hy : y < 1) :
    Real.log (x / (1 - x)) ≤ Real.log (y / (1 - y)) := by
  rcases eq_or_lt_of_le hxy with h | h
  · rw [h]
  · exact (logit_lt_logit hx h hy).le

lemma logit_abs_le {y : ℝ} (h1 : prec ≤ y) (h2 : y ≤ 1 - prec) :
    |Real.log (y / (1 - y))| ≤ Real.log ((1 - prec) / prec) := by
  have hy0 : 0 < y := lt_of_lt_of_le prec_pos h1
  have hy1 : 0 < 1 - y := by
    have := one_sub_prec_lt_one
    have := prec_pos
    linarith [le_trans h2 (le_of_lt one_sub_prec_lt_one)]
  have hps : 0 < 1 - prec := lt_of_lt_of_le prec_pos prec_le_one_sub
  rw [abs_le]
  constructor
  · have hlow : prec / (1 - prec) ≤ y / (1 - y) := by
      apply div_le_div (le_of_lt hy0) h1 hy1
      linarith
    have := Real.log_le_log (div_pos prec_pos hps) hlow
    rw [show prec / (1 - prec) = ((1 - prec) / prec)⁻¹ by
      rw [inv_div]] at this
    rw [Real.log_inv] at this
    linarith
  · apply Real.log_le_log (div_pos hy0 hy1)
    apply div_le_div (le_of_lt hps) h2 prec_pos
    linarith

lemma foldl_add_eq_sum {α : Type} (l : List α) (g : α → ℝ) (a : ℝ) :
    l.foldl (fun acc x => acc + g x) a = a + (l.map g).sum := by
  induction l generalizing a with
  | nil => simp
  | cons x xs ih => simp [ih, add_assoc]

lemma sum_map_div {α : Type} (l : List α) (g : α → ℝ) (c : ℝ) :
    (l.map (fun x => g x / c)).sum = (l.map g).sum / c := by
  induction l with
  | nil => simp
  | cons x xs ih => simp [ih, add_div]

lemma foldl_rew {α : Type} (l : List α) (g : α → ℝ) (c : ℝ) :
    l.foldl (fun acc ev => acc + g ev / c) 0 = (l.map g).sum / c := by
  rw [foldl_add_eq_sum l (fun ev => g ev / c) 0, zero_add,
    sum_map_div l g c]

lemma expectedReward_eq_sum {α : Type} [DecidableEq α]
    (pop sam : Categorical α) :
    expectedReward pop sam =
      (pop.events.map (fun ev => |reward (pop.prob ev) (sam.prob ev)|)).sum
        / (pop.events.length : ℝ) := by
  simp only [expectedReward]
  exact foldl_rew pop.events
    (fun ev => |reward (pop.prob ev) (sam.prob ev)|)
    ((pop.events.length : ℝ))

/-- Claim C1: for all real prior and p, `reward(prior, p)` equals
`ln(pC/(1−pC)) − ln(priorC/(1−priorC))` where `priorC` and `pC` clamp prior
and p into `[0.0001, 0.9999]` (ε = 0.0001) before use. -/
theorem reward_eq_rewardSpec (prior p : ℝ) :
    reward prior p = rewardSpec prior p := by
  simp only [reward, rewardSpec]
  rw [clamp_comm p prec (1 - prec) prec_le_one_sub,
    clamp_comm prior prec (1 - prec) prec_le_one_sub]
  norm_num [prec]

/-- Claim C2: `expectedReward(referenceDist, candidateDist)` enumerates the
event set of the reference distribution (not the candidate's) and returns the
unweighted arithmetic mean, over those events, of the absolute rewards. -/
theorem expectedReward_eq_spec {α : Type} [DecidableEq α]
    (pop sam : Categorical α) :
    expectedReward pop sam = expectedRewardSpec pop sam := by
  rw [expectedRewardSpec]
  exact expectedReward_eq_sum pop sam

/-- Claim C3, counterexample to the claim as stated: no pair prior, p in
(0, 1) makes `reward(prior, p)` differ from `-reward(p, prior)` — the
claimed existence of such a pair is false. -/
theorem reward_antisymm_no_pair :
    ¬ ∃ prior p : ℝ, 0 < prior ∧ prior < 1 ∧ 0 < p ∧ p < 1 ∧
      reward prior p ≠ -reward p prior := by
  rintro ⟨prior, p, _, _, _, _, hne⟩
  apply hne
  simp [reward, neg_sub]

/-- Claim C3 amended: for all prior, p in (0, 1),
`reward(prior, p) == -reward(p, prior)` — the antisymmetry holds
universally, since the clamping is applied argument-wise. -/
theorem reward_antisymm (prior p : ℝ) (h1 : 0 < prior) (h2 : prior < 1)
    (h3 : 0 < p) (h4 : p < 1) :
    reward prior p = -reward p prior := by
  simp [reward, neg_sub]

/-- Witness for the amended claim C3 at prior = 0.25, p = 0.75. -/
theorem reward_antisymm_witness :
    (0 : ℝ) < 0.25 ∧ (0.25 : ℝ) < 1 ∧ (0 : ℝ) < 0.75 ∧ (0.75 : ℝ) < 1 ∧
      reward 0.25 0.75 = -reward 0.75 0.25 :=
  ⟨by norm_num, by norm_num, by norm_num, by norm_num,
    reward_antisymm 0.25 0.75 (by norm_num) (by norm_num) (by norm_num)
      (by norm_num)⟩

/-- Claim C4, counterexample to the claim as stated: prior = 0.00005 and
p = 0.0001 both lie in (0, 1) and p exceeds prior, yet the reward is not
positive — both arguments clamp to 0.0001 and the reward is 0. -/
theorem reward_sign_counterexample :
    (0 : ℝ) < 0.00005 ∧ (0.00005 : ℝ) < 1 ∧ (0 : ℝ) < 0.0001 ∧
      (0.0001 : ℝ) < 1 ∧ (0.00005 : ℝ) < 0.0001 ∧
      ¬ (0 < reward 0.00005 0.0001) := by
  refine ⟨by norm_num, by norm_num, by norm_num, by norm_num, by norm_num, ?_⟩
  have e1 : clamp 0.00005 prec (1 - prec) = prec := by
    rw [clamp, min_eq_left (by norm_num [prec]), max_eq_left (by norm_num [prec])]
  have e2 : clamp 0.0001 prec (1 - prec) = prec := by
    rw [clamp, min_eq_left (by norm_num [prec])]
    rw [show (0.0001 : ℝ) = prec by norm_num [prec], max_self]
  simp only [reward, e1, e2, sub_self]
  norm_num

/-- Claim C4 amended: for all prior and p in the clamped range
[0.0001, 0.9999], the reward is positive when p exceeds prior and negative
when p is below prior. -/
theorem reward_sign (prior p : ℝ) (h1 : prec ≤ prior) (h2 : prior ≤ 1 - prec)
    (h3 : prec ≤ p) (h4 : p ≤ 1 - prec) :
    (prior < p → 0 < reward prior p) ∧ (p < prior → reward prior p < 0) := by
  have hp1 : 0 < prior := lt_of_lt_of_le prec_pos h1
  have hp3 : 0 < p := lt_of_lt_of_le prec_pos h3
  have hu2 : prior < 1 := lt_of_le_of_lt h2 one_sub_prec_lt_one
  have hu4 : p < 1 := lt_of_le_of_lt h4 one_sub_prec_lt_one
  simp only [reward, clamp_eq_self h1 h2, clamp_eq_self h3 h4]
  constructor
  · intro h
    have := logit_lt_logit hp1 h hu4
    linarith
  · intro h
    have := logit_lt_logit hp3 h hu2
    linarith

/-- Witness for the amended claim C4 at prior = 0.5, p = 0.75. -/
theorem reward_sign_witness :
    (0.5 : ℝ) < 0.75 ∧ 0 < reward 0.5 0.75 := by
  have h := reward_sign 0.5 0.75 (by norm_num [prec]) (by norm_num [prec])
    (by norm_num [prec]) (by norm_num [prec])
  exact ⟨by norm_num, h.1 (by norm_num)⟩

/-- Claim C5: for every fixed prior, the reward is monotonically increasing
in p: p1 ≤ p2 implies `reward(prior, p1) ≤ reward(prior, p2)`. -/
theorem reward_mono (prior p1 p2 : ℝ) (h : p1 ≤ p2) :
    reward prior p1 ≤ reward prior p2 := by
  simp only [reward]
  apply sub_le_sub_right
  apply logit_le_logit
  · exact lt_of_lt_of_le prec_pos (le_clamp p1 prec (1 - prec))
  · exact clamp_mono prec (1 - prec) h
  · exact lt_of_le_of_lt (clamp_le prec_le_one_sub) one_sub_prec_lt_one

/-- Witness for claim C5 at prior = 0.5, p1 = 0.25, p2 = 0.75. -/
theorem reward_mono_witness :
    (0.25 : ℝ) ≤ 0.75 ∧ reward 0.5 0.25 ≤ reward 0.5 0.75 :=
  ⟨by norm_num, reward_mono 0.5 0.25 0.75 (by norm_num)⟩

/-- Claim C6: for all valid prior in (0, 1), `reward(prior, prior) == 0`. -/
theorem reward_self (prior : ℝ) (h1 : 0 < prior) (h2 : prior < 1) :
    reward prior prior = 0 := by
  simp [reward]

/-- Witness for claim C6 at prior = 0.5. -/
theorem reward_self_witness :
    (0 : ℝ) < 0.5 ∧ (0.5 : ℝ) < 1 ∧ reward 0.5 0.5 = 0 :=
  ⟨by norm_num, by norm_num, reward_self 0.5 (by norm_num) (by norm_num)⟩

/-- Claim C7: for any non-degenerate categorical distribution D (non-empty
event set, positive total weight), `expectedReward(D, D) == 0`. -/
theorem expectedReward_self {α : Type} [DecidableEq α] (D : Categorical α)
    (h1 : D.events ≠ []) (h2 : 0 < D.weightSum) :
    expectedReward D D = 0 := by
  rw [expectedReward_eq_sum]
  have hz : ∀ x ∈ D.events.map (fun ev => |reward (D.prob ev) (D.prob ev)|),
      x = 0 := by
    intro x hx
    rcases List.mem_map.1 hx with ⟨ev, _, rfl⟩
    simp [reward]
  rw [List.sum_eq_zero hz, zero_div]

/-- Witness for claim C7 at the distribution learned from the events 0, 1. -/
theorem expectedReward_self_witness :
    (Categorical.mk [0, 1] : Categorical ℕ).events ≠ [] ∧
      0 < (Categorical.mk [0, 1] : Categorical ℕ).weightSum ∧
      expectedReward (Categorical.mk [0, 1] : Categorical ℕ)
        (Categorical.mk [0, 1] : Categorical ℕ) = 0 :=
  ⟨by decide, by decide,
    expectedReward_self (Categorical.mk [0, 1] : Categorical ℕ)
      (by decide) (by decide)⟩

/-- Claim C8: for all x > 0, `slack(x)` equals
`0.95 · exp(−(ln x)² / 6)` and consequently `slack(x) ≤ 0.95`. -/
theorem slack_eq_and_le (x : ℝ) (hx : 0 < x) :
    slack x = 0.95 * Real.exp (-(Real.log x) ^ 2 / 6) ∧ slack x ≤ 0.95 := by
  constructor
  · simp only [slack]
    ring_nf
  · simp only [slack]
    have h1 : Real.exp (-Real.log x * Real.log x / 6) ≤ 1 := by
      rw [Real.exp_le_one_iff]
      nlinarith [sq_nonneg (Real.log x)]
    have h2 := mul_le_mul_of_nonneg_left h1 (by norm_num : (0 : ℝ) ≤ 0.95)
    simpa using h2

/-- Witness for claim C8 at x = 1. -/
theorem slack_witness :
    (0 : ℝ) < 1 ∧
      (slack 1 = 0.95 * Real.exp (-(Real.log 1) ^ 2 / 6) ∧ slack 1 ≤ 0.95) :=
  ⟨by norm_num, slack_eq_and_le 1 (by norm_num)⟩

/-- Claim C9: `expectedReward(referenceDist, candidateDist)` is non-negative
for every pair of categorical distributions: each term is an absolute value
divided by the event count. -/
theorem expectedReward_nonneg {α : Type} [DecidableEq α]
    (pop sam : Categorical α) :
    0 ≤ expectedReward pop sam := by
  rw [expectedReward_eq_sum]
  apply div_nonneg
  · apply List.sum_nonneg
    intro x hx
    rcases List.mem_map.1 hx with ⟨ev, _, rfl⟩
    exact abs_nonneg _
  · exact Nat.cast_nonneg _

/-- Claim C10: for all real prior and p, the absolute reward is bounded by
`2 · ln((1 − 0.0001)/0.0001)`: both arguments are clamped before the logit
difference is taken, so the reward is total and never infinite. -/
theorem reward_bounded (prior p : ℝ) :
    |reward prior p| ≤ 2 * Real.log ((1 - 0.0001) / 0.0001) := by
  simp only [reward]
  have hp1 : prec ≤ clamp p prec (1 - prec) := le_clamp p prec (1 - prec)
  have hp2 : clamp p prec (1 - prec) ≤ 1 - prec := clamp_le prec_le_one_sub
  have hq1 : prec ≤ clamp prior prec (1 - prec) := le_clamp prior prec (1 - prec)
  have hq2 : clamp prior prec (1 - prec) ≤ 1 - prec := clamp_le prec_le_one_sub
  have h1 := logit_abs_le hp1 hp2
  have h2 := logit_abs_le hq1 hq2
  have h3 := abs_sub
    (Real.log (clamp p prec (1 - prec) / (1 - clamp p prec (1 - prec))))
    (Real.log (clamp prior prec (1 - prec) / (1 - clamp prior prec (1 - prec))))
  have hM : Real.log ((1 - prec) / prec) = Real.log ((1 - 0.0001) / 0.0001) := by
    norm_num [prec]
  rw [hM] at h1 h2
  linarith

end PredictionError
